import Mathlib

/-!
# Verification of the `smallworld` simulation core against its specification

This file shallowly embeds the level loader (`src/assets.rs`, `load_levels`)
and the per-tick session logic (`src/game_state/mod.rs`, `GameState::update`)
of the `smallworld` puzzle-chase game, and proves or refutes the frozen
claims about them.

Conventions:
* Rust `f32` tile coordinates are modelled as rationals (`ℚ`); every value the
  claims touch is an exact small dyadic value, so `f32` arithmetic is exact on
  them.
* Rust `panic!` / `expect` / `assert!` during loading are modelled as
  `Except LoadError`, with one constructor per panic site; the constructor
  for an unrecognized token carries the token, exactly as the Rust format
  string does.
-/

set_option autoImplicit false

namespace Smallworld

/-- 2D vector over ℚ, modelling `Vector2<f32>` at the exact values used here. -/
structure Vec2 where
  x : ℚ
  y : ℚ
  deriving DecidableEq, Repr

/-- Input record per level, modelling `LevelData { name, tiles }` from
`src/assets.rs`: a name and the grid rows, top row first. -/
structure LevelData where
  name : String
  tiles : List String
  deriving DecidableEq, Repr

/-- Output record, modelling `Level` from `src/assets.rs`: note it has no
button, gate, push-block, wall-style or patrol-path fields. -/
structure Level where
  name : String
  midpoint : Vec2
  player_pos : Vec2
  stalker_pos : Vec2
  doors : List Vec2
  blocks : List Vec2
  deriving DecidableEq, Repr

/-- One constructor per fatal exit of `load_levels` in `src/assets.rs`:
the `panic!` on an unparsable token (which carries the token and nothing
else), the `assert!(doors.len() > 0)`, and the two `expect`s for the
missing player and stalker positions.  None of the corresponding messages
mentions the level name. -/
inductive LoadError where
  | unparsable (tok : String)
  | noDoors
  | noPlayer
  | noStalker
  deriving DecidableEq, Repr

/-- The exact panic / expect message each error aborts with in
`src/assets.rs` (the `assert!` has no custom message). -/
def LoadError.message : LoadError → String
  | .unparsable tok => "Found unparsable character in level file: " ++ tok
  | .noDoors => "assertion failed: doors.len() > 0"
  | .noPlayer => "No player position in level"
  | .noStalker => "No stalker position in level"

/-- The mutable locals of the per-level loop in `load_levels`
(`player_pos`, `stalker_pos`, `doors`, `blocks`, `width`). -/
structure ParseState where
  player_pos : Option Vec2
  stalker_pos : Option Vec2
  doors : List Vec2
  blocks : List Vec2
  width : Nat
  deriving DecidableEq, Repr

/-- The initial loop state of `load_levels` for each level. -/
def initState : ParseState :=
  { player_pos := none, stalker_pos := none, doors := [], blocks := [], width := 0 }

/-- The body of the token loop in `load_levels`: `width = max(width, x)`,
then the `match code` over the five recognized tokens, panicking on any
other token.  The Rust `match` over distinct string literals is the same
first-match chain as this `if` cascade. -/
def parseToken (s : ParseState) (x y : Nat) (code : String) : Except LoadError ParseState :=
  let s1 := { s with width := max s.width x }
  let tilepos : Vec2 := ⟨(x : ℚ), (y : ℚ)⟩
  if code = "P" then .ok { s1 with player_pos := some tilepos }
  else if code = "S" then .ok { s1 with stalker_pos := some tilepos }
  else if code = "D" then .ok { s1 with doors := s1.doors ++ [tilepos] }
  else if code = "=" then .ok { s1 with blocks := s1.blocks ++ [tilepos] }
  else if code = "." then .ok s1
  else .error (.unparsable code)

/-- Rust's `str::split(' ')`: cut the character list at every space,
keeping empty pieces; always yields at least one piece. -/
def splitSpaces : List Char → List Char → List String
  | [], acc => [⟨acc⟩]
  | c :: rest, acc =>
    if c = ' ' then ⟨acc⟩ :: splitSpaces rest [] else splitSpaces rest (acc ++ [c])

/-- The token list of one grid row, as `row.split(' ')` produces it. -/
def rowTokens (row : String) : List String := splitSpaces row.toList []

/-- The inner `for (x, code) in row.split(' ').enumerate()` loop of
`load_levels`, starting at column index `x`. -/
def parseRow (y : Nat) : Nat → List String → ParseState → Except LoadError ParseState
  | _, [], s => .ok s
  | x, code :: rest, s =>
    match parseToken s x y code with
    | .error e => .error e
    | .ok s' => parseRow y (x + 1) rest s'

/-- The outer `for (inv_y, row) in leveldata.tiles.iter().enumerate()` loop
of `load_levels`, with `y = height - inv_y - 1`. -/
def parseRows (height : Nat) : Nat → List String → ParseState → Except LoadError ParseState
  | _, [], s => .ok s
  | invY, row :: rest, s =>
    match parseRow (height - invY - 1) 0 (rowTokens row) s with
    | .error e => .error e
    | .ok s' => parseRows height (invY + 1) rest s'

/-- The tail of the per-level body of `load_levels`, after the scan:
compute `midpoint = vec2(width, height) * 0.5 + vec2(0, -0.5)`, then fail
in the source's order: `assert!(doors.len() > 0)` before the `player_pos`
and `stalker_pos` `expect`s in the struct literal. -/
def mkLevel (name : String) (height : Nat) (s : ParseState) : Except LoadError Level :=
  if s.doors.length > 0 then
    match s.player_pos with
    | some p =>
      match s.stalker_pos with
      | some q =>
        .ok { name := name,
              midpoint := ⟨(s.width : ℚ) / 2, (height : ℚ) / 2 - 1 / 2⟩,
              player_pos := p, stalker_pos := q,
              doors := s.doors, blocks := s.blocks }
      | none => .error .noStalker
    | none => .error .noPlayer
  else .error .noDoors

/-- The per-level body of `load_levels`: scan the grid, then build the
`Level` (or fail) from the final loop state. -/
def loadLevel (ld : LevelData) : Except LoadError Level :=
  match parseRows ld.tiles.length 0 ld.tiles initState with
  | .error e => .error e
  | .ok s => mkLevel ld.name ld.tiles.length s

/-- `load_levels` over a parsed level set: one `Level` pushed per declared
level, in declaration order; the first panic aborts the whole load. -/
def load_levels : List LevelData → Except LoadError (List Level)
  | [] => .ok []
  | ld :: rest =>
    match loadLevel ld with
    | .error e => .error e
    | .ok l =>
      match load_levels rest with
      | .error e => .error e
      | .ok ls => .ok (l :: ls)

/-- The five tokens the `match` in `load_levels` accepts without panicking. -/
def recognizedTokens : List String := ["P", "S", "D", "=", "."]

/-- The number of distinct token categories the specification lists for the
loader: player start, hazard start, goal/door, wall, pushable block,
button, gate, empty.  (Stated from the spec's words, for comparison with
`recognizedTokens`, which is read off the source.) -/
def specTokenCategoryCount : Nat := 8

/-- Decidable equality on `Except`, for evaluating loader results. -/
instance exceptDecEq {ε α : Type} [DecidableEq ε] [DecidableEq α] :
    DecidableEq (Except ε α)
  | .ok a, .ok b =>
    if h : a = b then .isTrue (by rw [h])
    else .isFalse (fun hh => by cases hh; exact h rfl)
  | .ok _, .error _ => .isFalse (fun hh => by cases hh)
  | .error _, .ok _ => .isFalse (fun hh => by cases hh)
  | .error a, .error b =>
    if h : a = b then .isTrue (by rw [h])
    else .isFalse (fun hh => by cases hh; exact h rfl)

/-- The grid contains only tokens the loader's `match` accepts. -/
def gridTokensRecognized (ld : LevelData) : Prop :=
  ∀ row ∈ ld.tiles, ∀ c ∈ rowTokens row, c ∈ recognizedTokens

/-- Some grid cell holds the player-start token. -/
def gridHasPlayer (ld : LevelData) : Prop := ∃ row ∈ ld.tiles, "P" ∈ rowTokens row

/-- Some grid cell holds the hazard-start token. -/
def gridHasStalker (ld : LevelData) : Prop := ∃ row ∈ ld.tiles, "S" ∈ rowTokens row

/-- Some grid cell holds the goal/door token. -/
def gridHasDoor (ld : LevelData) : Prop := ∃ row ∈ ld.tiles, "D" ∈ rowTokens row

instance (ld : LevelData) : Decidable (gridTokensRecognized ld) := by
  unfold gridTokensRecognized; infer_instance

instance (ld : LevelData) : Decidable (gridHasPlayer ld) := by
  unfold gridHasPlayer; infer_instance

instance (ld : LevelData) : Decidable (gridHasStalker ld) := by
  unfold gridHasStalker; infer_instance

instance (ld : LevelData) : Decidable (gridHasDoor ld) := by
  unfold gridHasDoor; infer_instance

/-- The door positions one row of tokens contributes, in scan order:
a `"D"` at column index `x` (counting from the given start column) at
row-height `y` contributes `(x, y)`. -/
def rowDoors (y : Nat) : Nat → List String → List Vec2
  | _, [] => []
  | x, c :: rest =>
    (if c = "D" then [⟨(x : ℚ), (y : ℚ)⟩] else []) ++ rowDoors y (x + 1) rest

/-- The door positions a whole grid contributes, in scan order: source row
`invY` (counted from the top) is scanned at height `h - invY - 1`. -/
def gridDoors (h : Nat) : Nat → List String → List Vec2
  | _, [] => []
  | invY, row :: rest =>
    rowDoors (h - invY - 1) 0 (rowTokens row) ++ gridDoors h (invY + 1) rest

/-- The `width` accumulator of `load_levels` over a whole grid:
`width = max(width, x)` over every token index of every row. -/
def gridWidth (tiles : List String) : Nat :=
  tiles.foldl (fun w row => max w ((rowTokens row).length - 1)) 0

/-- Length of the longest row of the grid, in tokens; the quantity the
specification calls the level's width. -/
def longestRow (tiles : List String) : Nat :=
  tiles.foldl (fun w row => max w (rowTokens row).length) 0

/-!
## Per-tick session logic (`src/game_state/mod.rs`, `GameState::update`)
-/

/-- One identifier per system pass `GameState::update` performs, named after
the functions it calls: the two button/gate logic passes
(`buttons::check_button_presses`, `buttons::open_and_close_gates`), the four
motion passes (`motion::track_player`, `motion::player_controls`,
`motion::push_stuff`, `motion::move_towards_destinations`), the cosmetic
gate-sprite sync (`buttons::update_gate_sprites`), and the final inline
victory/gameover evaluation. -/
inductive SystemId where
  | checkButtonPresses
  | openAndCloseGates
  | trackPlayer
  | playerControls
  | pushStuff
  | moveTowardsDestinations
  | updateGateSprites
  | winLossEvaluation
  deriving DecidableEq, Repr

/-- The exact sequence of system passes in `GameState::update`, in the
source order of `src/game_state/mod.rs` lines 135-150. -/
def tickSystems : List SystemId :=
  [.checkButtonPresses, .openAndCloseGates, .trackPlayer, .playerControls,
   .pushStuff, .moveTowardsDestinations, .updateGateSprites, .winLossEvaluation]

/-- Session states, as far as `GameState::update` distinguishes them: it
only ever writes `StateType::EndingState`; `gameState` stands for the state
the update runs in.  (The full `StateType` enum lives in `state.rs`, which
is not part of the sources; only these two cases matter here.) -/
inductive StateType where
  | gameState
  | endingState
  deriving DecidableEq, Repr

/-- The world components the win/loss evaluation reads: the player's
position and the positions of all `Goal` and `Hazard` entities. -/
structure WorldView where
  player_pos : Vec2
  goal_positions : List Vec2
  hazard_positions : List Vec2
  deriving DecidableEq, Repr

/-- Modelled from the spec: `victory::determine_victory_from_goal`
(`systems/victory.rs` is not under the given sources).  Spec 4.7: "victory
= Player's Position exactly equals some Goal's Position". -/
def determine_victory_from_goal (w : WorldView) : Bool :=
  w.goal_positions.any (fun g => g = w.player_pos)

/-- Modelled from the spec: `victory::determine_gameover_from_hazard`
(`systems/victory.rs` is not under the given sources).  Spec 4.7:
"gameover = Player's Position exactly equals some Hazard's Position". -/
def determine_gameover_from_hazard (w : WorldView) : Bool :=
  w.hazard_positions.any (fun hz => hz = w.player_pos)

/-- The fields of `Game` that `GameState::update` reads or writes. -/
structure Game where
  current_level : Nat
  levels : List Level
  complete : Bool
  current_state : StateType
  deriving DecidableEq, Repr

/-- The tail of `GameState::update` (`src/game_state/mod.rs` lines 145-166):
compute `victory` and `gameover` unconditionally; on victory advance
`current_level`, and when it runs past the level list mark the game
complete, reset `current_level` to 0 and switch to the ending state;
return `!(victory | gameover)` (`true` means keep running the level). -/
def updateExit (game : Game) (w : WorldView) : Game × Bool :=
  let victory := determine_victory_from_goal w
  let gameover := determine_gameover_from_hazard w
  let game' :=
    if victory then
      let g1 := { game with current_level := game.current_level + 1 }
      if g1.levels.length ≤ g1.current_level then
        { g1 with complete := true, current_level := 0,
                  current_state := .endingState }
      else g1
    else game
  (game', !(victory || gameover))

/-!
## Movement interpolation (spec 4.3; `systems/motion.rs` is not under the
given sources)
-/

/-- Vector sum. -/
def Vec2.add (a b : Vec2) : Vec2 := ⟨a.x + b.x, a.y + b.y⟩

/-- Vector difference. -/
def Vec2.sub (a b : Vec2) : Vec2 := ⟨a.x - b.x, a.y - b.y⟩

/-- Scalar multiple. -/
def Vec2.scale (k : ℚ) (v : Vec2) : Vec2 := ⟨k * v.x, k * v.y⟩

/-- Squared Euclidean magnitude. -/
def Vec2.normSq (v : Vec2) : ℚ := v.x * v.x + v.y * v.y

/-- Modelled from the spec: the `Destination { target tile, unit direction }`
of the Motion component (spec 3); `systems/motion.rs` is not under the
given sources. -/
structure Destination where
  target : Vec2
  direction : Vec2
  deriving DecidableEq, Repr

/-- Modelled from the spec: the Motion component — an optional destination
plus a scalar speed in tiles per second (spec 3). -/
structure Motion where
  destination : Option Destination
  speed : ℚ
  deriving DecidableEq, Repr

/-- Modelled from the spec: `motion::move_towards_destinations` for a single
entity (`systems/motion.rs` is not under the given sources).  Spec 4.3:
"remaining = target − position; if |remaining| ≤ speed·dt, snap to target
exactly and transition to Idle (arrival); otherwise advance position by
direction·speed·dt."  The magnitude comparison is rendered on squares,
which is equivalent whenever speed·dt ≥ 0. -/
def move_towards_destination (pos : Vec2) (m : Motion) (dt : ℚ) : Vec2 × Motion :=
  match m.destination with
  | none => (pos, m)
  | some d =>
    let remaining := d.target.sub pos
    if remaining.normSq ≤ (m.speed * dt) * (m.speed * dt) then
      (d.target, { m with destination := none })
    else
      (pos.add (Vec2.scale (m.speed * dt) d.direction), m)

/-!
## Lemmas about the loader
-/

theorem splitSpaces_ne_nil (cs acc : List Char) : splitSpaces cs acc ≠ [] := by
  induction cs generalizing acc with
  | nil => simp [splitSpaces]
  | cons c rest ih =>
    unfold splitSpaces
    split_ifs <;> simp [ih]

theorem rowTokens_ne_nil (row : String) : rowTokens row ≠ [] :=
  splitSpaces_ne_nil _ _

theorem rowTokens_length_pos (row : String) : 0 < (rowTokens row).length :=
  List.length_pos.mpr (rowTokens_ne_nil row)

theorem parseToken_isOk (s : ParseState) (x y : Nat) (code : String) :
    (∃ s', parseToken s x y code = .ok s') ↔ code ∈ recognizedTokens := by
  unfold parseToken recognizedTokens
  split_ifs with h1 h2 h3 h4 h5
  all_goals simp_all

theorem parseToken_error (s : ParseState) (x y : Nat) (code : String) (e : LoadError)
    (h : parseToken s x y code = .error e) :
    e = .unparsable code ∧ code ∉ recognizedTokens := by
  unfold parseToken at h
  split_ifs at h with h1 h2 h3 h4 h5 <;> simp_all [recognizedTokens]

theorem parseToken_fields (s : ParseState) (x y : Nat) (code : String) (s' : ParseState)
    (h : parseToken s x y code = .ok s') :
    s'.player_pos = (if code = "P" then some ⟨(x : ℚ), (y : ℚ)⟩ else s.player_pos)
    ∧ s'.stalker_pos = (if code = "S" then some ⟨(x : ℚ), (y : ℚ)⟩ else s.stalker_pos)
    ∧ s'.doors = s.doors ++ (if code = "D" then [⟨(x : ℚ), (y : ℚ)⟩] else [])
    ∧ s'.width = max s.width x := by
  unfold parseToken at h
  split_ifs at h with h1 h2 h3 h4 h5 <;> cases h <;> simp_all

theorem parseRow_isOk (y : Nat) (codes : List String) :
    ∀ (x : Nat) (s : ParseState),
      (∃ s', parseRow y x codes s = .ok s') ↔ ∀ c ∈ codes, c ∈ recognizedTokens := by
  induction codes with
  | nil => intro x s; simp [parseRow]
  | cons c rest ih =>
    intro x s
    simp only [parseRow]
    rcases hT : parseToken s x y c with e | s1
    · have hc := (parseToken_error s x y c e hT).2
      simp only [List.mem_cons]
      constructor
      · rintro ⟨s', hs'⟩; cases hs'
      · rintro hall
        exact absurd (hall c (Or.inl rfl)) hc
    · have hc : c ∈ recognizedTokens := (parseToken_isOk s x y c).mp ⟨s1, hT⟩
      rw [ih (x + 1) s1]
      simp [hc]

theorem parseRow_error (y : Nat) (codes : List String) :
    ∀ (x : Nat) (s : ParseState) (e : LoadError),
      parseRow y x codes s = .error e →
      ∃ c ∈ codes, c ∉ recognizedTokens ∧ e = .unparsable c := by
  induction codes with
  | nil => intro x s e h; simp [parseRow] at h
  | cons c rest ih =>
    intro x s e h
    simp only [parseRow] at h
    rcases hT : parseToken s x y c with e2 | s1 <;> rw [hT] at h
    · cases h
      refine ⟨c, List.mem_cons_self _ _, ?_, ?_⟩
      · exact (parseToken_error _ _ _ _ _ hT).2
      · exact (parseToken_error _ _ _ _ _ hT).1
    · obtain ⟨c', hc', hrec, he⟩ := ih (x + 1) s1 e h
      exact ⟨c', List.mem_cons_of_mem _ hc', hrec, he⟩

theorem parseRow_player (y : Nat) (codes : List String) :
    ∀ (x : Nat) (s s' : ParseState), parseRow y x codes s = .ok s' →
      (s'.player_pos.isSome = true ↔ (s.player_pos.isSome = true ∨ "P" ∈ codes)) := by
  induction codes with
  | nil => intro x s s' h; cases h; simp [parseRow]
  | cons c rest ih =>
    intro x s s' h
    simp only [parseRow] at h
    rcases hT : parseToken s x y c with e | s1 <;> rw [hT] at h
    · cases h
    · have hp := (parseToken_fields s x y c s1 hT).1
      rw [ih (x + 1) s1 s' h, hp]
      by_cases hc : c = "P"
      · simp [hc]
      · simp [hc, Ne.symm hc]

theorem parseRow_stalker (y : Nat) (codes : List String) :
    ∀ (x : Nat) (s s' : ParseState), parseRow y x codes s = .ok s' →
      (s'.stalker_pos.isSome = true ↔ (s.stalker_pos.isSome = true ∨ "S" ∈ codes)) := by
  induction codes with
  | nil => intro x s s' h; cases h; simp [parseRow]
  | cons c rest ih =>
    intro x s s' h
    simp only [parseRow] at h
    rcases hT : parseToken s x y c with e | s1 <;> rw [hT] at h
    · cases h
    · have hp := (parseToken_fields s x y c s1 hT).2.1
      rw [ih (x + 1) s1 s' h, hp]
      by_cases hc : c = "S"
      · simp [hc]
      · simp [hc, Ne.symm hc]

theorem parseRow_doors (y : Nat) (codes : List String) :
    ∀ (x : Nat) (s s' : ParseState), parseRow y x codes s = .ok s' →
      s'.doors = s.doors ++ rowDoors y x codes := by
  induction codes with
  | nil => intro x s s' h; cases h; simp [rowDoors]
  | cons c rest ih =>
    intro x s s' h
    simp only [parseRow] at h
    rcases hT : parseToken s x y c with e | s1 <;> rw [hT] at h
    · cases h
    · have hd := (parseToken_fields s x y c s1 hT).2.2.1
      rw [ih (x + 1) s1 s' h, hd, rowDoors, List.append_assoc]

theorem parseRow_width (y : Nat) (codes : List String) :
    ∀ (x : Nat) (s s' : ParseState), codes ≠ [] → parseRow y x codes s = .ok s' →
      s'.width = max s.width (x + codes.length - 1) := by
  induction codes with
  | nil => intro x s s' h; cases h rfl
  | cons c rest ih =>
    intro x s s' _ h
    simp only [parseRow] at h
    rcases hT : parseToken s x y c with e | s1 <;> rw [hT] at h
    · cases h
    · have hw := (parseToken_fields s x y c s1 hT).2.2.2
      rcases rest with _ | ⟨c', rest'⟩
      · cases h; rw [hw]; simp
      · rw [ih (x + 1) s1 s' (by simp) h, hw]
        simp only [List.length_cons]
        omega

theorem parseRows_isOk (h : Nat) (rows : List String) :
    ∀ (invY : Nat) (s : ParseState),
      (∃ s', parseRows h invY rows s = .ok s')
        ↔ ∀ row ∈ rows, ∀ c ∈ rowTokens row, c ∈ recognizedTokens := by
  induction rows with
  | nil => intro invY s; simp [parseRows]
  | cons row rest ih =>
    intro invY s
    simp only [parseRows]
    rcases hR : parseRow (h - invY - 1) 0 (rowTokens row) s with e | s1
    · constructor
      · rintro ⟨s', hs'⟩; cases hs'
      · rintro hall
        have : ∃ s', parseRow (h - invY - 1) 0 (rowTokens row) s = .ok s' :=
          (parseRow_isOk _ _ _ _).mpr (hall row (List.mem_cons_self _ _))
        rw [hR] at this
        obtain ⟨s', hs'⟩ := this
        cases hs'
    · have hrow : ∀ c ∈ rowTokens row, c ∈ recognizedTokens :=
        (parseRow_isOk _ _ _ _).mp ⟨s1, hR⟩
      rw [ih (invY + 1) s1]
      simp only [List.mem_cons]
      constructor
      · rintro hall r (rfl | hr)
        · exact hrow
        · exact hall r hr
      · rintro hall r hr
        exact hall r (Or.inr hr)

theorem parseRows_error (h : Nat) (rows : List String) :
    ∀ (invY : Nat) (s : ParseState) (e : LoadError),
      parseRows h invY rows s = .error e →
      ∃ row ∈ rows, ∃ c ∈ rowTokens row, c ∉ recognizedTokens ∧ e = .unparsable c := by
  induction rows with
  | nil => intro invY s e hh; simp [parseRows] at hh
  | cons row rest ih =>
    intro invY s e hh
    simp only [parseRows] at hh
    rcases hR : parseRow (h - invY - 1) 0 (rowTokens row) s with e2 | s1 <;> rw [hR] at hh
    · cases hh
      obtain ⟨c, hc, hrec, he⟩ := parseRow_error _ _ _ _ _ hR
      exact ⟨row, List.mem_cons_self _ _, c, hc, hrec, he⟩
    · obtain ⟨r, hr, c, hc, hrec, he⟩ := ih (invY + 1) s1 e hh
      exact ⟨r, List.mem_cons_of_mem _ hr, c, hc, hrec, he⟩

theorem parseRows_player (h : Nat) (rows : List String) :
    ∀ (invY : Nat) (s s' : ParseState), parseRows h invY rows s = .ok s' →
      (s'.player_pos.isSome = true
        ↔ (s.player_pos.isSome = true ∨ ∃ row ∈ rows, "P" ∈ rowTokens row)) := by
  induction rows with
  | nil => intro invY s s' hh; cases hh; simp [parseRows]
  | cons row rest ih =>
    intro invY s s' hh
    simp only [parseRows] at hh
    rcases hR : parseRow (h - invY - 1) 0 (rowTokens row) s with e | s1 <;> rw [hR] at hh
    · cases hh
    · rw [ih (invY + 1) s1 s' hh, parseRow_player _ _ _ _ _ hR]
      simp only [List.mem_cons]
      constructor
      · rintro ((hs | hp) | ⟨r, hr, hp⟩)
        · exact Or.inl hs
        · exact Or.inr ⟨row, Or.inl rfl, hp⟩
        · exact Or.inr ⟨r, Or.inr hr, hp⟩
      · rintro (hs | ⟨r, (rfl | hr), hp⟩)
        · exact Or.inl (Or.inl hs)
        · exact Or.inl (Or.inr hp)
        · exact Or.inr ⟨r, hr, hp⟩

theorem parseRows_stalker (h : Nat) (rows : List String) :
    ∀ (invY : Nat) (s s' : ParseState), parseRows h invY rows s = .ok s' →
      (s'.stalker_pos.isSome = true
        ↔ (s.stalker_pos.isSome = true ∨ ∃ row ∈ rows, "S" ∈ rowTokens row)) := by
  induction rows with
  | nil => intro invY s s' hh; cases hh; simp [parseRows]
  | cons row rest ih =>
    intro invY s s' hh
    simp only [parseRows] at hh
    rcases hR : parseRow (h - invY - 1) 0 (rowTokens row) s with e | s1 <;> rw [hR] at hh
    · cases hh
    · rw [ih (invY + 1) s1 s' hh, parseRow_stalker _ _ _ _ _ hR]
      simp only [List.mem_cons]
      constructor
      · rintro ((hs | hp) | ⟨r, hr, hp⟩)
        · exact Or.inl hs
        · exact Or.inr ⟨row, Or.inl rfl, hp⟩
        · exact Or.inr ⟨r, Or.inr hr, hp⟩
      · rintro (hs | ⟨r, (rfl | hr), hp⟩)
        · exact Or.inl (Or.inl hs)
        · exact Or.inl (Or.inr hp)
        · exact Or.inr ⟨r, hr, hp⟩

theorem parseRows_doors (h : Nat) (rows : List String) :
    ∀ (invY : Nat) (s s' : ParseState), parseRows h invY rows s = .ok s' →
      s'.doors = s.doors ++ gridDoors h invY rows := by
  induction rows with
  | nil => intro invY s s' hh; cases hh; simp [gridDoors]
  | cons row rest ih =>
    intro invY s s' hh
    simp only [parseRows] at hh
    rcases hR : parseRow (h - invY - 1) 0 (rowTokens row) s with e | s1 <;> rw [hR] at hh
    · cases hh
    · rw [ih (invY + 1) s1 s' hh, parseRow_doors _ _ _ _ _ hR, gridDoors,
        List.append_assoc]

theorem parseRows_width (h : Nat) (rows : List String) :
    ∀ (invY : Nat) (s s' : ParseState), parseRows h invY rows s = .ok s' →
      s'.width = rows.foldl (fun w row => max w ((rowTokens row).length - 1)) s.width := by
  induction rows with
  | nil => intro invY s s' hh; cases hh; simp
  | cons row rest ih =>
    intro invY s s' hh
    simp only [parseRows] at hh
    rcases hR : parseRow (h - invY - 1) 0 (rowTokens row) s with e | s1 <;> rw [hR] at hh
    · cases hh
    · rw [ih (invY + 1) s1 s' hh, List.foldl_cons,
        parseRow_width _ _ _ _ _ (rowTokens_ne_nil row) hR]
      simp

theorem rowDoors_eq_nil (y : Nat) (codes : List String) :
    ∀ x : Nat, rowDoors y x codes = [] ↔ "D" ∉ codes := by
  induction codes with
  | nil => intro x; simp [rowDoors]
  | cons c rest ih =>
    intro x
    by_cases hc : c = "D"
    · subst hc; simp [rowDoors]
    · simp [rowDoors, hc, ih (x + 1), Ne.symm hc]

theorem gridDoors_eq_nil (h : Nat) (rows : List String) :
    ∀ invY : Nat, gridDoors h invY rows = [] ↔ ∀ row ∈ rows, "D" ∉ rowTokens row := by
  induction rows with
  | nil => intro invY; simp [gridDoors]
  | cons row rest ih =>
    intro invY
    simp [gridDoors, rowDoors_eq_nil, ih (invY + 1), List.forall_mem_cons]

theorem mkLevel_ok_iff (name : String) (height : Nat) (s : ParseState) :
    (∃ l, mkLevel name height s = .ok l)
      ↔ s.doors ≠ [] ∧ s.player_pos.isSome = true ∧ s.stalker_pos.isSome = true := by
  unfold mkLevel
  by_cases hlen : 0 < s.doors.length
  · rw [if_pos hlen]
    have hd : s.doors ≠ [] := by
      intro hnil; rw [hnil] at hlen; simp at hlen
    rcases hpv : s.player_pos with _ | p
    · simp [hd]
    · rcases hqv : s.stalker_pos with _ | q <;> simp [hd]
  · rw [if_neg hlen]
    have hd : s.doors = [] := by
      rcases hdv : s.doors with _ | ⟨d, ds⟩
      · rfl
      · rw [hdv] at hlen; simp at hlen
    simp [hd]

theorem mkLevel_fields (name : String) (height : Nat) (s : ParseState) (l : Level)
    (h : mkLevel name height s = .ok l) :
    l.name = name ∧ l.doors = s.doors
    ∧ l.midpoint = ⟨(s.width : ℚ) / 2, (height : ℚ) / 2 - 1 / 2⟩ := by
  unfold mkLevel at h
  by_cases hlen : 0 < s.doors.length
  · rw [if_pos hlen] at h
    rcases hpv : s.player_pos with _ | p <;> rw [hpv] at h
    · cases h
    · rcases hqv : s.stalker_pos with _ | q <;> rw [hqv] at h
      · cases h
      · cases h; exact ⟨rfl, rfl, rfl⟩
  · rw [if_neg hlen] at h
    cases h

theorem mkLevel_never_unparsable (name : String) (height : Nat) (s : ParseState)
    (c : String) : mkLevel name height s ≠ .error (.unparsable c) := by
  unfold mkLevel
  by_cases hlen : 0 < s.doors.length
  · rw [if_pos hlen]
    rcases s.player_pos with _ | p
    · intro h; cases h
    · rcases s.stalker_pos with _ | q <;> intro h <;> cases h
  · rw [if_neg hlen]
    intro h; cases h

theorem loadLevel_ok_iff (ld : LevelData) :
    (∃ l, loadLevel ld = .ok l)
      ↔ gridTokensRecognized ld ∧ gridHasPlayer ld ∧ gridHasStalker ld ∧ gridHasDoor ld := by
  unfold loadLevel
  rcases hP : parseRows ld.tiles.length 0 ld.tiles initState with e | s
  · constructor
    · rintro ⟨l, hl⟩; cases hl
    · rintro ⟨hrec, _, _, _⟩
      have hex : ∃ s', parseRows ld.tiles.length 0 ld.tiles initState = .ok s' :=
        (parseRows_isOk _ _ _ _).mpr hrec
      rw [hP] at hex
      obtain ⟨s', hs'⟩ := hex
      cases hs'
  · have hrec : gridTokensRecognized ld := (parseRows_isOk _ _ _ _).mp ⟨s, hP⟩
    have hplayer := parseRows_player _ _ _ _ _ hP
    have hstalker := parseRows_stalker _ _ _ _ _ hP
    have hdoors := parseRows_doors _ _ _ _ _ hP
    simp only [initState, Option.isSome_none, Bool.false_eq_true, false_or,
      List.nil_append] at hplayer hstalker hdoors
    rw [mkLevel_ok_iff, hplayer, hstalker, hdoors]
    have hdd : gridDoors ld.tiles.length 0 ld.tiles ≠ [] ↔ gridHasDoor ld := by
      rw [Ne, gridDoors_eq_nil]
      unfold gridHasDoor
      push_neg
      simp
    rw [hdd]
    unfold gridHasPlayer gridHasStalker
    constructor
    · rintro ⟨hd, hp, hq⟩; exact ⟨hrec, hp, hq, hd⟩
    · rintro ⟨_, hp, hq, hd⟩; exact ⟨hd, hp, hq⟩

theorem loadLevel_fields (ld : LevelData) (l : Level) (h : loadLevel ld = .ok l) :
    l.name = ld.name
    ∧ l.doors = gridDoors ld.tiles.length 0 ld.tiles
    ∧ l.midpoint = ⟨(gridWidth ld.tiles : ℚ) / 2, (ld.tiles.length : ℚ) / 2 - 1 / 2⟩ := by
  unfold loadLevel at h
  rcases hP : parseRows ld.tiles.length 0 ld.tiles initState with e | s <;> rw [hP] at h
  · cases h
  · have hdoors := parseRows_doors _ _ _ _ _ hP
    have hwidth := parseRows_width _ _ _ _ _ hP
    simp only [initState, List.nil_append] at hdoors hwidth
    obtain ⟨h1, h2, h3⟩ := mkLevel_fields _ _ _ _ h
    refine ⟨h1, by rw [h2, hdoors], ?_⟩
    rw [h3, hwidth]
    rfl

theorem loadLevel_unparsable (ld : LevelData) (c : String)
    (h : loadLevel ld = .error (.unparsable c)) :
    c ∉ recognizedTokens ∧ ∃ row ∈ ld.tiles, c ∈ rowTokens row := by
  unfold loadLevel at h
  rcases hP : parseRows ld.tiles.length 0 ld.tiles initState with e | s <;> rw [hP] at h
  · injection h with he
    subst he
    obtain ⟨row, hrow, c2, hc2, hrec, he2⟩ := parseRows_error _ _ _ _ _ hP
    cases he2
    exact ⟨hrec, row, hrow, hc2⟩
  · exact absurd h (mkLevel_never_unparsable _ _ _ _)

theorem mem_rowDoors (y : Nat) (codes : List String) :
    ∀ (x i : Nat), codes.get? i = some "D" →
      Vec2.mk ((x + i : Nat) : ℚ) (y : ℚ) ∈ rowDoors y x codes := by
  induction codes with
  | nil => intro x i h; simp at h
  | cons c rest ih =>
    intro x i h
    cases i with
    | zero =>
      simp only [List.get?_cons_zero, Option.some.injEq] at h
      subst h
      simp [rowDoors]
    | succ i =>
      simp only [List.get?_cons_succ] at h
      have hmem := ih (x + 1) i h
      have hx : x + (i + 1) = (x + 1) + i := by omega
      rw [hx]
      unfold rowDoors
      exact List.mem_append_right _ hmem

theorem mem_gridDoors (h : Nat) (tiles : List String) :
    ∀ (invY r x : Nat) (row : String), tiles.get? r = some row →
      (rowTokens row).get? x = some "D" →
      Vec2.mk (x : ℚ) ((h - (invY + r) - 1 : Nat) : ℚ) ∈ gridDoors h invY tiles := by
  induction tiles with
  | nil => intro invY r x row hr _; simp at hr
  | cons t rest ih =>
    intro invY r x row hr hx
    cases r with
    | zero =>
      simp only [List.get?_cons_zero, Option.some.injEq] at hr
      subst hr
      have hmem := mem_rowDoors (h - invY - 1) (rowTokens t) 0 x hx
      simp only [Nat.zero_add] at hmem
      unfold gridDoors
      refine List.mem_append_left _ ?_
      have hy : h - (invY + 0) - 1 = h - invY - 1 := by omega
      rw [hy]
      exact hmem
    | succ r =>
      simp only [List.get?_cons_succ] at hr
      have hmem := ih (invY + 1) r x row hr hx
      unfold gridDoors
      refine List.mem_append_right _ ?_
      have hy : h - (invY + (r + 1)) - 1 = h - ((invY + 1) + r) - 1 := by omega
      rw [hy]
      exact hmem

theorem foldl_width_succ (tiles : List String) :
    ∀ w : Nat,
      tiles.foldl (fun w row => max w ((rowTokens row).length - 1)) w + 1
        = tiles.foldl (fun w row => max w (rowTokens row).length) (w + 1) := by
  induction tiles with
  | nil => intro w; rfl
  | cons t rest ih =>
    intro w
    simp only [List.foldl_cons]
    rw [ih]
    congr 1
    have := rowTokens_length_pos t
    omega

theorem gridWidth_add_one (tiles : List String) (h : tiles ≠ []) :
    gridWidth tiles + 1 = longestRow tiles := by
  unfold gridWidth longestRow
  rw [foldl_width_succ]
  rcases tiles with _ | ⟨t, rest⟩
  · cases h rfl
  · simp only [List.foldl_cons]
    congr 1
    have := rowTokens_length_pos t
    omega

theorem loadLevel_name (ld : LevelData) (l : Level) (h : loadLevel ld = .ok l) :
    l.name = ld.name :=
  (loadLevel_fields ld l h).1

theorem load_levels_names (lds : List LevelData) :
    ∀ ls : List Level, load_levels lds = .ok ls →
      ls.map Level.name = lds.map LevelData.name := by
  induction lds with
  | nil => intro ls h; cases h; rfl
  | cons ld rest ih =>
    intro ls h
    simp only [load_levels] at h
    rcases hL : loadLevel ld with e | l <;> rw [hL] at h
    · cases h
    · rcases hR : load_levels rest with e | ls2 <;> rw [hR] at h
      · cases h
      · cases h
        simp only [List.map_cons, ih ls2 hR, loadLevel_name ld l hL]

/-!
## Claim theorems about the loader
-/

/-- C2 (amended): loading a level fails exactly when its grid contains an
unrecognized token, lacks a player start, lacks a hazard start, or has zero
goals; the unrecognized-token error identifies the offending token (it
carries a token that really occurs in the grid and is not recognized) —
but no load error identifies the offending level (see the counterexample). -/
theorem c2_load_failure_exactly (ld : LevelData) :
    ((loadLevel ld).isOk = true
      ↔ gridTokensRecognized ld ∧ gridHasPlayer ld ∧ gridHasStalker ld ∧ gridHasDoor ld)
    ∧ (∀ c, loadLevel ld = .error (.unparsable c) →
        c ∉ recognizedTokens ∧ ∃ row ∈ ld.tiles, c ∈ rowTokens row) := by
  constructor
  · rw [← loadLevel_ok_iff]
    constructor
    · intro h
      rcases hL : loadLevel ld with e | l
      · rw [hL] at h; simp [Except.isOk, Except.toBool] at h
      · exact ⟨l, rfl⟩
    · rintro ⟨l, hl⟩; rw [hl]; rfl
  · intro c h
    exact loadLevel_unparsable ld c h

/-- C2 witness: a grid holding the player, stalker and door tokens loads;
the same grid with the door replaced by an empty tile fails to load. -/
theorem c2_load_failure_exactly_witness :
    (loadLevel ⟨"w", ["P S D"]⟩).isOk = true
    ∧ (loadLevel ⟨"w2", ["P S ."]⟩).isOk = false := by
  constructor
  · exact (c2_load_failure_exactly ⟨"w", ["P S D"]⟩).1.mpr (by decide)
  · rw [← Bool.not_eq_true]
    exact fun hok =>
      absurd ((c2_load_failure_exactly ⟨"w2", ["P S ."]⟩).1.mp hok) (by decide)

/-- C2 counterexample: the fatal error does not identify the offending
level.  Two levels that differ only in their name produce the identical
error value, and its message (`LoadError.message`) mentions only the token,
so no consumer can tell which level failed. -/
theorem c2_error_lacks_level_name :
    loadLevel ⟨"alpha", ["P S D Q"]⟩ = .error (.unparsable "Q")
    ∧ loadLevel ⟨"beta", ["P S D Q"]⟩ = .error (.unparsable "Q")
    ∧ ("alpha" : String) ≠ "beta"
    ∧ LoadError.message (.unparsable "Q")
        = "Found unparsable character in level file: Q" := by
  refine ⟨by decide, by decide, by decide, rfl⟩

/-- C3: the loader accepts exactly the five tokens `P`, `S`, `D`, `=`, `.`
— there is no token for a style-tagged wall, a button or a gate, and any
such token (here `B`) aborts the load with the unrecognized-token panic,
even though the level consumer (`GameState::new`) requires button, gate,
push-block and patrol data that the produced `Level` cannot carry. -/
theorem c3_loader_accepts_only_five_tokens :
    loadLevel ⟨"lvl", ["P S D = . B"]⟩ = .error (.unparsable "B")
    ∧ recognizedTokens.length = 5
    ∧ recognizedTokens.Nodup
    ∧ specTokenCategoryCount = 8 := by
  refine ⟨by decide, rfl, by decide, rfl⟩

/-- C4 (amended): for every grid that loads, the midpoint is
`(width/2, height/2 − 1/2)` where `height` is the row count but `width` is
the loader's accumulator `max(width, x)` over token indices — one LESS than
the length of the longest row, not the length itself. -/
theorem c4_midpoint_dimensions (ld : LevelData) (l : Level)
    (h : loadLevel ld = .ok l) :
    l.midpoint = ⟨(gridWidth ld.tiles : ℚ) / 2, (ld.tiles.length : ℚ) / 2 - 1 / 2⟩
    ∧ gridWidth ld.tiles + 1 = longestRow ld.tiles := by
  refine ⟨(loadLevel_fields ld l h).2.2, gridWidth_add_one _ ?_⟩
  intro hnil
  obtain ⟨_, _, _, hd⟩ := (loadLevel_ok_iff ld).mp ⟨l, h⟩
  have hd2 : ∃ row ∈ ld.tiles, "D" ∈ rowTokens row := hd
  obtain ⟨row, hrow, -⟩ := hd2
  rw [hnil] at hrow
  cases hrow

/-- C4 witness: the 3-by-2 grid loads with midpoint (1, 1/2), matching the
amended formula with `gridWidth = 2 = longestRow − 1` and height 2. -/
theorem c4_midpoint_dimensions_witness :
    loadLevel ⟨"w4", ["P S D", ". . ."]⟩
      = .ok ⟨"w4", ⟨1, 1 / 2⟩, ⟨0, 1⟩, ⟨1, 1⟩, [⟨2, 1⟩], []⟩
    ∧ Level.midpoint ⟨"w4", ⟨1, 1 / 2⟩, ⟨0, 1⟩, ⟨1, 1⟩, [⟨2, 1⟩], []⟩
        = ⟨(gridWidth ["P S D", ". . ."] : ℚ) / 2,
           ((["P S D", ". . ."] : List String).length : ℚ) / 2 - 1 / 2⟩
    ∧ gridWidth ["P S D", ". . ."] + 1 = longestRow ["P S D", ". . ."] := by
  have h : loadLevel ⟨"w4", ["P S D", ". . ."]⟩
      = .ok ⟨"w4", ⟨1, 1 / 2⟩, ⟨0, 1⟩, ⟨1, 1⟩, [⟨2, 1⟩], []⟩ := by
    simp +decide [loadLevel, parseRows, parseRow, parseToken, rowTokens, splitSpaces,
      initState, mkLevel]
    try norm_num
  have hc := c4_midpoint_dimensions ⟨"w4", ["P S D", ". . ."]⟩
    ⟨"w4", ⟨1, 1 / 2⟩, ⟨0, 1⟩, ⟨1, 1⟩, [⟨2, 1⟩], []⟩ h
  exact ⟨h, hc.1, hc.2⟩

/-- C4 counterexample: for the one-row grid `"P S D"` the longest row has 3
tokens and there is 1 row, so the claimed midpoint is (3/2, 0); the loader
computes (1, 0). -/
theorem c4_midpoint_not_half_longest_row :
    longestRow ["P S D"] = 3
    ∧ (["P S D"] : List String).length = 1
    ∧ (loadLevel ⟨"lvl4", ["P S D"]⟩).map Level.midpoint = .ok ⟨1, 0⟩
    ∧ Vec2.mk 1 0 ≠ ⟨(3 : ℚ) / 2, (1 : ℚ) / 2 - 1 / 2⟩ := by
  refine ⟨by decide, rfl, ?_, ?_⟩
  · simp +decide [loadLevel, parseRows, parseRow, parseToken, rowTokens, splitSpaces,
      initState, mkLevel]
    try norm_num
  · intro h
    injection h with hx hy
    norm_num at hx

/-- C7: a door token at column `x` of source row `r` of a grid with `h`
rows is loaded at tile position `(x, h − r − 1)`: source row 0 (the top)
gets the highest Y coordinate and tile-Y increases upward. -/
theorem c7_top_row_maps_to_highest_y (ld : LevelData) (l : Level)
    (r x : Nat) (row : String)
    (hload : loadLevel ld = .ok l)
    (hrow : ld.tiles.get? r = some row)
    (htok : (rowTokens row).get? x = some "D") :
    Vec2.mk (x : ℚ) ((ld.tiles.length - r - 1 : Nat) : ℚ) ∈ l.doors := by
  rw [(loadLevel_fields ld l hload).2.1]
  have hm := mem_gridDoors ld.tiles.length ld.tiles 0 r x row hrow htok
  simpa using hm

/-- C7 witness: in a 2-row grid the door in source row 0 (the top row)
comes out at Y = 1, the highest tile row. -/
theorem c7_top_row_maps_to_highest_y_witness :
    loadLevel ⟨"w7", ["D S P", ". . ."]⟩
      = .ok ⟨"w7", ⟨1, 1 / 2⟩, ⟨2, 1⟩, ⟨1, 1⟩, [⟨0, 1⟩], []⟩
    ∧ Vec2.mk ((0 : Nat) : ℚ)
          (((["D S P", ". . ."] : List String).length - 0 - 1 : Nat) : ℚ)
        ∈ Level.doors ⟨"w7", ⟨1, 1 / 2⟩, ⟨2, 1⟩, ⟨1, 1⟩, [⟨0, 1⟩], []⟩ := by
  have h : loadLevel ⟨"w7", ["D S P", ". . ."]⟩
      = .ok ⟨"w7", ⟨1, 1 / 2⟩, ⟨2, 1⟩, ⟨1, 1⟩, [⟨0, 1⟩], []⟩ := by
    simp +decide [loadLevel, parseRows, parseRow, parseToken, rowTokens, splitSpaces,
      initState, mkLevel]
    try norm_num
  exact ⟨h, c7_top_row_maps_to_highest_y ⟨"w7", ["D S P", ". . ."]⟩
    ⟨"w7", ⟨1, 1 / 2⟩, ⟨2, 1⟩, ⟨1, 1⟩, [⟨0, 1⟩], []⟩ 0 0 "D S P" h (by decide) (by decide)⟩

/-- C8: a successful load yields exactly one `Level` per declared level,
and the level names appear in declaration order. -/
theorem c8_one_level_per_declared_name (lds : List LevelData) (ls : List Level)
    (h : load_levels lds = .ok ls) :
    ls.length = lds.length ∧ ls.map Level.name = lds.map LevelData.name := by
  have hm := load_levels_names lds ls h
  refine ⟨?_, hm⟩
  have hlen := congrArg List.length hm
  simpa using hlen

/-- C8 witness: a two-level set loads to two levels named in declaration
order. -/
theorem c8_one_level_per_declared_name_witness :
    load_levels [⟨"a", ["P S D"]⟩, ⟨"b", ["D S P"]⟩]
      = .ok [⟨"a", ⟨1, 0⟩, ⟨0, 0⟩, ⟨1, 0⟩, [⟨2, 0⟩], []⟩,
             ⟨"b", ⟨1, 0⟩, ⟨2, 0⟩, ⟨1, 0⟩, [⟨0, 0⟩], []⟩]
    ∧ ([⟨"a", ⟨1, 0⟩, ⟨0, 0⟩, ⟨1, 0⟩, [⟨2, 0⟩], []⟩,
        ⟨"b", ⟨1, 0⟩, ⟨2, 0⟩, ⟨1, 0⟩, [⟨0, 0⟩], []⟩] : List Level).length
        = ([⟨"a", ["P S D"]⟩, ⟨"b", ["D S P"]⟩] : List LevelData).length
    ∧ ([⟨"a", ⟨1, 0⟩, ⟨0, 0⟩, ⟨1, 0⟩, [⟨2, 0⟩], []⟩,
        ⟨"b", ⟨1, 0⟩, ⟨2, 0⟩, ⟨1, 0⟩, [⟨0, 0⟩], []⟩] : List Level).map Level.name
        = ([⟨"a", ["P S D"]⟩, ⟨"b", ["D S P"]⟩] : List LevelData).map LevelData.name := by
  have h : load_levels [⟨"a", ["P S D"]⟩, ⟨"b", ["D S P"]⟩]
      = .ok [⟨"a", ⟨1, 0⟩, ⟨0, 0⟩, ⟨1, 0⟩, [⟨2, 0⟩], []⟩,
             ⟨"b", ⟨1, 0⟩, ⟨2, 0⟩, ⟨1, 0⟩, [⟨0, 0⟩], []⟩] := by
    simp +decide [load_levels, loadLevel, parseRows, parseRow, parseToken, rowTokens,
      splitSpaces, initState, mkLevel]
    try norm_num
  have hc := c8_one_level_per_declared_name _ _ h
  exact ⟨h, hc.1, hc.2⟩

/-!
## Claim theorems about the tick
-/

/-- C1 counterexample: in `GameState::update` the button-press and
gate-open/close passes run first — before the hazard-AI pass and before
the interpolation pass — so the claimed order (button/gate update only
after interpolation, AI first) is false; only the cosmetic gate-sprite
sync runs after interpolation. -/
theorem c1_button_gate_runs_first :
    tickSystems.indexOf SystemId.checkButtonPresses = 0
    ∧ tickSystems.indexOf SystemId.openAndCloseGates = 1
    ∧ tickSystems.indexOf SystemId.trackPlayer = 2
    ∧ tickSystems.indexOf SystemId.moveTowardsDestinations = 5
    ∧ ¬ tickSystems.indexOf SystemId.moveTowardsDestinations
        < tickSystems.indexOf SystemId.checkButtonPresses
    ∧ ¬ tickSystems.indexOf SystemId.trackPlayer
        < tickSystems.indexOf SystemId.checkButtonPresses := by decide

/-- C1 (amended): within every tick the fixed order is: button-press
detection, then gate open/close, then hazard AI decision, then player
input handling, then push resolution, then destination interpolation,
then the cosmetic gate-sprite sync, and finally win/loss evaluation. -/
theorem c1_tick_order :
    tickSystems.indexOf SystemId.checkButtonPresses
      < tickSystems.indexOf SystemId.openAndCloseGates
    ∧ tickSystems.indexOf SystemId.openAndCloseGates
      < tickSystems.indexOf SystemId.trackPlayer
    ∧ tickSystems.indexOf SystemId.trackPlayer
      < tickSystems.indexOf SystemId.playerControls
    ∧ tickSystems.indexOf SystemId.playerControls
      < tickSystems.indexOf SystemId.pushStuff
    ∧ tickSystems.indexOf SystemId.pushStuff
      < tickSystems.indexOf SystemId.moveTowardsDestinations
    ∧ tickSystems.indexOf SystemId.moveTowardsDestinations
      < tickSystems.indexOf SystemId.updateGateSprites
    ∧ tickSystems.indexOf SystemId.updateGateSprites
      < tickSystems.indexOf SystemId.winLossEvaluation
    ∧ tickSystems.length = 8 := by decide

/-- C6: every tick both the victory check (player position equals some
goal position) and the gameover check (player position equals some hazard
position) are computed, and the update signals level exit (returns `false`,
i.e. non-continue) iff victory or gameover holds. -/
theorem c6_exit_iff_victory_or_gameover (g : Game) (w : WorldView) :
    ((updateExit g w).2 = false
      ↔ (determine_victory_from_goal w = true
          ∨ determine_gameover_from_hazard w = true))
    ∧ (determine_victory_from_goal w = true
        ↔ ∃ gp ∈ w.goal_positions, gp = w.player_pos)
    ∧ (determine_gameover_from_hazard w = true
        ↔ ∃ hp ∈ w.hazard_positions, hp = w.player_pos) := by
  refine ⟨?_, ?_, ?_⟩
  · rcases hv : determine_victory_from_goal w with _ | _ <;>
      rcases hg : determine_gameover_from_hazard w with _ | _ <;>
        simp [updateExit, hv, hg]
  · simp [determine_victory_from_goal, List.any_eq_true]
  · simp [determine_gameover_from_hazard, List.any_eq_true]

/-- C9: when victory and gameover hold on the same tick, the victory
handling still runs — the current level index is advanced (shown here when
a next level exists, where advancing means incrementing by one). -/
theorem c9_victory_advances_level_despite_gameover (g : Game) (w : WorldView)
    (hv : determine_victory_from_goal w = true)
    (hg : determine_gameover_from_hazard w = true)
    (hnext : g.current_level + 1 < g.levels.length) :
    (updateExit g w).1.current_level = g.current_level + 1
    ∧ (updateExit g w).2 = false := by
  have hlt : ¬ g.levels.length ≤ g.current_level + 1 := by omega
  simp [updateExit, hv, hg, hlt]

/-- C9 witness: a two-level game where the player stands on a tile that is
both a goal and a hazard position: the level index still advances to 1. -/
theorem c9_victory_advances_level_despite_gameover_witness :
    determine_victory_from_goal ⟨⟨0, 0⟩, [⟨0, 0⟩], [⟨0, 0⟩]⟩ = true
    ∧ determine_gameover_from_hazard ⟨⟨0, 0⟩, [⟨0, 0⟩], [⟨0, 0⟩]⟩ = true
    ∧ (updateExit
        ⟨0, [⟨"a", ⟨0, 0⟩, ⟨0, 0⟩, ⟨0, 0⟩, [⟨0, 0⟩], []⟩,
             ⟨"b", ⟨0, 0⟩, ⟨0, 0⟩, ⟨0, 0⟩, [⟨0, 0⟩], []⟩], false, .gameState⟩
        ⟨⟨0, 0⟩, [⟨0, 0⟩], [⟨0, 0⟩]⟩).1.current_level = 0 + 1 := by
  refine ⟨by decide, by decide, ?_⟩
  exact (c9_victory_advances_level_despite_gameover
    ⟨0, [⟨"a", ⟨0, 0⟩, ⟨0, 0⟩, ⟨0, 0⟩, [⟨0, 0⟩], []⟩,
         ⟨"b", ⟨0, 0⟩, ⟨0, 0⟩, ⟨0, 0⟩, [⟨0, 0⟩], []⟩], false, .gameState⟩
    ⟨⟨0, 0⟩, [⟨0, 0⟩], [⟨0, 0⟩]⟩ (by decide) (by decide) (by decide)).1

/-- C10: a victory tick on the last level of the set marks the game
complete, resets the current level index to 0, and switches the session to
the ending state; the tick also signals level exit. -/
theorem c10_final_victory_ends_game (g : Game) (w : WorldView)
    (hv : determine_victory_from_goal w = true)
    (hlast : g.current_level + 1 = g.levels.length) :
    (updateExit g w).1.complete = true
    ∧ (updateExit g w).1.current_level = 0
    ∧ (updateExit g w).1.current_state = StateType.endingState
    ∧ (updateExit g w).2 = false := by
  have hge : g.levels.length ≤ g.current_level + 1 := by omega
  simp [updateExit, hv, hge]

/-- C10 witness: a one-level game on a victory tick: the game is complete,
the level index is 0 again, and the session is in the ending state. -/
theorem c10_final_victory_ends_game_witness :
    determine_victory_from_goal ⟨⟨0, 0⟩, [⟨0, 0⟩], []⟩ = true
    ∧ (updateExit ⟨0, [⟨"a", ⟨0, 0⟩, ⟨0, 0⟩, ⟨0, 0⟩, [⟨0, 0⟩], []⟩], false, .gameState⟩
        ⟨⟨0, 0⟩, [⟨0, 0⟩], []⟩).1.complete = true
    ∧ (updateExit ⟨0, [⟨"a", ⟨0, 0⟩, ⟨0, 0⟩, ⟨0, 0⟩, [⟨0, 0⟩], []⟩], false, .gameState⟩
        ⟨⟨0, 0⟩, [⟨0, 0⟩], []⟩).1.current_state = StateType.endingState := by
  have hc := c10_final_victory_ends_game
    ⟨0, [⟨"a", ⟨0, 0⟩, ⟨0, 0⟩, ⟨0, 0⟩, [⟨0, 0⟩], []⟩], false, .gameState⟩
    ⟨⟨0, 0⟩, [⟨0, 0⟩], []⟩ (by decide) (by decide)
  exact ⟨by decide, hc.1, hc.2.2.1⟩

/-!
## Claim theorem about movement interpolation
-/

theorem move_towards_destination_some (pos target dir : Vec2) (speed dt : ℚ) :
    move_towards_destination pos ⟨some ⟨target, dir⟩, speed⟩ dt
      = if (target.sub pos).normSq ≤ (speed * dt) * (speed * dt)
        then (target, ⟨none, speed⟩)
        else (pos.add (Vec2.scale (speed * dt) dir), ⟨some ⟨target, dir⟩, speed⟩) := rfl

/-- C5: for a Moving entity whose stored unit direction points along the
remaining vector (target − position = k·direction with k ≥ 0): if the
remaining distance k is at most speed·dt, the tick sets the position
exactly to the target and the entity becomes Idle; otherwise the position
advances by direction·speed·dt, the entity stays Moving, and the remaining
vector is still a positive multiple of the direction — it never overshoots
the target. -/
theorem c5_interpolation_never_overshoots (pos target dir : Vec2) (speed dt k : ℚ)
    (hdir : dir.normSq = 1)
    (hk : 0 ≤ k)
    (hrem : target.sub pos = Vec2.scale k dir)
    (hsdt : 0 ≤ speed * dt) :
    (k ≤ speed * dt →
      move_towards_destination pos ⟨some ⟨target, dir⟩, speed⟩ dt
        = (target, ⟨none, speed⟩))
    ∧ (speed * dt < k →
      move_towards_destination pos ⟨some ⟨target, dir⟩, speed⟩ dt
        = (pos.add (Vec2.scale (speed * dt) dir), ⟨some ⟨target, dir⟩, speed⟩)
      ∧ target.sub (pos.add (Vec2.scale (speed * dt) dir))
          = Vec2.scale (k - speed * dt) dir
      ∧ 0 < k - speed * dt) := by
  have hx := congrArg Vec2.x hrem
  have hy := congrArg Vec2.y hrem
  simp only [Vec2.sub, Vec2.scale] at hx hy
  have hns : (target.sub pos).normSq = k * k := by
    rw [hrem]
    simp only [Vec2.scale, Vec2.normSq] at hdir ⊢
    linear_combination k * k * hdir
  constructor
  · intro hle
    rw [move_towards_destination_some, hns, if_pos (mul_self_le_mul_self hk hle)]
  · intro hlt
    have hnle : ¬ (target.sub pos).normSq ≤ (speed * dt) * (speed * dt) := by
      rw [hns]
      push_neg
      exact mul_self_lt_mul_self hsdt hlt
    rw [move_towards_destination_some, if_neg hnle]
    refine ⟨rfl, ?_, by linarith⟩
    simp only [Vec2.sub, Vec2.add, Vec2.scale, Vec2.mk.injEq]
    constructor
    · linear_combination hx
    · linear_combination hy

/-- C5 witness: the spec's own vector: target (5,5), direction (1,0),
speed 4, from (1,5) with dt = 1 — speed·dt equals the remaining distance 4,
so the position snaps exactly to (5,5) and the entity goes Idle. -/
theorem c5_interpolation_never_overshoots_witness :
    move_towards_destination ⟨1, 5⟩ ⟨some ⟨⟨5, 5⟩, ⟨1, 0⟩⟩, 4⟩ 1
      = (⟨5, 5⟩, ⟨none, 4⟩) :=
  (c5_interpolation_never_overshoots ⟨1, 5⟩ ⟨5, 5⟩ ⟨1, 0⟩ 4 1 4
    (by norm_num [Vec2.normSq])
    (by norm_num)
    (by norm_num [Vec2.sub, Vec2.scale, Vec2.mk.injEq])
    (by norm_num)).1 (by norm_num)

end Smallworld
